import Mathlib

/-!
Verification development for the SeaLens single-page application
(`src/App.tsx`, `src/types.ts`).

The two documented cores are embedded shallowly:

* the scan-workflow state machine (`handleFileChange`, `startScan`,
  `resetScan`, `handleSaveClick`, `handleSaveScan`, `useAnimatedCounter`);
* the utility functions `lerp` and `normalizeAngle` and the flocking
  engine's per-frame leader-position update.

React `useState` fields of the `Scanning` component become the record
`ScanState`; calls into the outside world (object-URL allocation and
release, the analysis collaborator, the persistence collaborator) become
an explicit event list emitted next to the state change, so that
resource accounting and invocation counting are provable.  Object URLs
are identified by natural numbers handed out by a freshness counter.
JavaScript numbers in the counter animation are embedded as `ℚ` and the
angle/orbit arithmetic as `ℝ` (ideal real arithmetic in place of IEEE
floats).
-/

namespace SeaLens

/-- Embeds `OrganismResult` from `src/types.ts`: a count and an accuracy
between 0 and 1. -/
structure OrganismResult where
  count : Nat
  accuracy : ℚ
  deriving Repr, DecidableEq

/-- Embeds `ScanResults` from `src/types.ts`: exactly four named
organism entries. -/
structure ScanResults where
  plankton : OrganismResult
  algae : OrganismResult
  bacteria : OrganismResult
  protozoa : OrganismResult
  deriving Repr, DecidableEq

/-- A user file as the workflow sees it: its name and its media type
(the `File.type` string inspected by `handleFileChange`). -/
structure MFile where
  name : String
  mediaType : String
  deriving Repr, DecidableEq

/-- Embeds `SavedScan` from `src/types.ts`; the timestamp is an abstract
instant represented by a natural number.  The TypeScript interface
declares `image: string`, but the value stored by `handleSaveScan` is
`reader.result as string`, and after a failed read `reader.result` is
`null`, which the cast smuggles past the type; the field is therefore
embedded as `Option String`, with `none` standing for that runtime
`null`. -/
structure SavedScan where
  results : ScanResults
  image : Option String
  timestamp : Nat
  deriving Repr, DecidableEq

/-- The `useState` fields of the `Scanning` component in `src/App.tsx`
(lines 421-427), minus the purely presentational `isDragging`. -/
structure ScanState where
  isScanning : Bool
  scanResults : Option ScanResults
  showResults : Bool
  uploadedFile : Option MFile
  filePreviewUrl : Option Nat
  isDataSaved : Bool
  deriving Repr, DecidableEq

/-- Externally visible effects of a workflow transition: object-URL
bookkeeping (`URL.createObjectURL` / `URL.revokeObjectURL`), launching
the analysis collaborator (`getMarineOrganismCounts`), and handing a
scan to the persistence collaborator (`onSaveScan`). -/
inductive Event where
  | createUrl (u : Nat)
  | revokeUrl (u : Nat)
  | invokeAnalysis
  | invokeSave (results : ScanResults) (file : MFile)
  deriving Repr, DecidableEq

/-- Character-list prefix test, the meaning of JavaScript's
`String.prototype.startsWith`. -/
def charsPrefix : List Char → List Char → Bool
  | [], _ => true
  | _ :: _, [] => false
  | c :: cs, d :: ds => c == d && charsPrefix cs ds

/-- Embeds `s.startsWith(pre)` as used by `handleFileChange`: `pre` is
a character prefix of `s`. -/
def strStartsWith (s pre : String) : Bool := charsPrefix pre.data s.data

/-- Embeds `handleFileChange` (`src/App.tsx` lines 440-452).  The input
is the selected file (or `none`); `fresh` is the next unused object-URL
identifier.  Returns the new state, the emitted events in program
order, and the updated freshness counter.  The previous preview URL, if
any, is revoked first in both branches; only the image branch allocates
a new one. -/
def handleFileChange (file : Option MFile) (s : ScanState) (fresh : Nat) :
    ScanState × List Event × Nat :=
  let revokes : List Event :=
    match s.filePreviewUrl with
    | some u => [Event.revokeUrl u]
    | none => []
  match file with
  | some f =>
    if strStartsWith f.mediaType "image/" then
      ({ s with uploadedFile := some f
              , filePreviewUrl := some fresh
              , showResults := false
              , scanResults := none
              , isDataSaved := false },
       revokes ++ [Event.createUrl fresh], fresh + 1)
    else
      ({ s with uploadedFile := none, filePreviewUrl := none }, revokes, fresh)
  | none =>
      ({ s with uploadedFile := none, filePreviewUrl := none }, revokes, fresh)

/-- Embeds the cleanup function of the preview-URL effect
(`src/App.tsx` lines 436-438), run on teardown: revoke the live preview
URL when one exists. -/
def previewCleanup (s : ScanState) : List Event :=
  match s.filePreviewUrl with
  | some u => [Event.revokeUrl u]
  | none => []

/-- Embeds the synchronous prefix of `startScan` (`src/App.tsx` lines
476-486): the guard `if (isScanning || !uploadedFile) return` followed
by `setIsScanning(true); setShowResults(false); setIsDataSaved(false)`.
Launching the asynchronous remainder, which performs exactly one call
to the analysis collaborator, is recorded as an `invokeAnalysis`
event. -/
def startScanBegin (s : ScanState) : ScanState × List Event :=
  if s.isScanning || s.uploadedFile.isNone then (s, [])
  else
    ({ s with isScanning := true, showResults := false, isDataSaved := false },
     [Event.invokeAnalysis])

/-- Embeds the continuation of `startScan` after the collaborator
responds (`src/App.tsx` lines 483-485): `setScanResults(results);
setIsScanning(false); if (results) setShowResults(true)`. -/
def startScanComplete (results : Option ScanResults) (s : ScanState) : ScanState :=
  let s1 := { s with scanResults := results, isScanning := false }
  match results with
  | some _ => { s1 with showResults := true }
  | none => s1

/-- Embeds `resetScan` (`src/App.tsx` lines 488-494): clear the
scanning and results flags and the results, then run
`handleFileChange(null)` to drop the staged file and its preview
URL. -/
def resetScan (s : ScanState) (fresh : Nat) : ScanState × List Event × Nat :=
  let s1 := { s with isScanning := false, showResults := false, scanResults := none }
  handleFileChange none s1 fresh

/-- Embeds `handleSaveClick` (`src/App.tsx` lines 496-500): the guard
`if (!scanResults || !uploadedFile || isDataSaved) return`, then
`onSaveScan(scanResults, uploadedFile); setIsDataSaved(true)`. -/
def handleSaveClick (s : ScanState) : ScanState × List Event :=
  match s.scanResults, s.uploadedFile with
  | some r, some f =>
    if s.isDataSaved then (s, [])
    else ({ s with isDataSaved := true }, [Event.invokeSave r f])
  | some _, none => (s, [])
  | none, _ => (s, [])

/-- Number of hand-offs to the persistence collaborator in an event
list. -/
def saveInvocations (es : List Event) : Nat :=
  (es.filter fun e =>
    match e with
    | Event.invokeSave _ _ => true
    | _ => false).length

/-- Number of analysis-collaborator launches in an event list. -/
def analysisInvocations (es : List Event) : Nat :=
  (es.filter fun e =>
    match e with
    | Event.invokeAnalysis => true
    | _ => false).length

/-- Object-URL accounting: the multiset of live URLs after an event,
as a list.  `createUrl` allocates, `revokeUrl` releases. -/
def applyEvent (live : List Nat) : Event → List Nat
  | Event.createUrl u => u :: live
  | Event.revokeUrl u => live.erase u
  | _ => live

/-- Object-URL accounting over a whole event list, in program order. -/
def applyEvents (live : List Nat) (es : List Event) : List Nat :=
  es.foldl applyEvent live

/-! ### Animated counter (`src/App.tsx` lines 6, 14-41, 431-434) -/

/-- Embeds `const lerp = (a, b, t) => a + (b - a) * t`
(`src/App.tsx` line 6), over exact rationals. -/
def lerp (a b t : ℚ) : ℚ := a + (b - a) * t

/-- Embeds `Math.min((timestamp - startTime) / duration, 1)`
(`src/App.tsx` line 24): the clamped progress of the counter animation
at `elapsed` milliseconds. -/
def counterProgress (duration elapsed : ℚ) : ℚ :=
  min (elapsed / duration) 1

/-- Embeds `Math.floor(lerp(startCount, target, progress))`
(`src/App.tsx` line 25): the count displayed by `useAnimatedCounter`
`elapsed` milliseconds after the animation frame loop started. -/
def counterDisplay (startCount target duration elapsed : ℚ) : ℤ :=
  ⌊lerp startCount target (counterProgress duration elapsed)⌋

/-- Embeds the target fed to one `useAnimatedCounter` instance
(`src/App.tsx` lines 431-434):
`showResults ? scanResults?.category?.count ?? 0 : 0`.  `pick` selects
the organism category. -/
def counterTarget (showResults : Bool) (results : Option ScanResults)
    (pick : ScanResults → OrganismResult) : Nat :=
  if showResults then
    match results with
    | some r => (pick r).count
    | none => 0
  else 0

/-- The effect cleanup of `useAnimatedCounter` (`src/App.tsx` lines
35-37) stores the outgoing target into `countRef`, so the next
animation starts from the previous target value. -/
def counterStartOfPrevTarget (prevTarget : ℚ) : ℚ := prevTarget

/-! ### Angle normalization (`src/App.tsx` lines 7-11)

`normalizeAngle` is a pair of while loops over `Math.PI`; they are
embedded as two well-founded recursions over `ℝ`.  Totality of the
Lean functions is exactly the termination of the loops. -/

/-- Embeds the first loop `while (a > Math.PI) a -= Math.PI * 2`. -/
noncomputable def normLoopDown (a : ℝ) : ℝ :=
  if Real.pi < a then normLoopDown (a - Real.pi * 2) else a
termination_by (⌈(a - Real.pi) / (Real.pi * 2)⌉).toNat
decreasing_by
  have hpi : (0 : ℝ) < Real.pi := Real.pi_pos
  have hx : (0 : ℝ) < (a - Real.pi) / (Real.pi * 2) := by
    apply div_pos <;> linarith
  have hc : 0 < ⌈(a - Real.pi) / (Real.pi * 2)⌉ := Int.ceil_pos.mpr hx
  have hstep : (a - Real.pi * 2 - Real.pi) / (Real.pi * 2)
      = (a - Real.pi) / (Real.pi * 2) - 1 := by
    field_simp
    ring
  have : ⌈(a - Real.pi * 2 - Real.pi) / (Real.pi * 2)⌉
      = ⌈(a - Real.pi) / (Real.pi * 2)⌉ - 1 := by
    rw [hstep, Int.ceil_sub_one]
  omega

/-- Embeds the second loop `while (a < -Math.PI) a += Math.PI * 2`. -/
noncomputable def normLoopUp (a : ℝ) : ℝ :=
  if a < -Real.pi then normLoopUp (a + Real.pi * 2) else a
termination_by (⌈(-Real.pi - a) / (Real.pi * 2)⌉).toNat
decreasing_by
  have hpi : (0 : ℝ) < Real.pi := Real.pi_pos
  have hx : (0 : ℝ) < (-Real.pi - a) / (Real.pi * 2) := by
    apply div_pos <;> linarith
  have hc : 0 < ⌈(-Real.pi - a) / (Real.pi * 2)⌉ := Int.ceil_pos.mpr hx
  have hstep : (-Real.pi - (a + Real.pi * 2)) / (Real.pi * 2)
      = (-Real.pi - a) / (Real.pi * 2) - 1 := by
    field_simp
    ring
  have : ⌈(-Real.pi - (a + Real.pi * 2)) / (Real.pi * 2)⌉
      = ⌈(-Real.pi - a) / (Real.pi * 2)⌉ - 1 := by
    rw [hstep, Int.ceil_sub_one]
  omega

/-- Embeds `normalizeAngle` (`src/App.tsx` lines 7-11): run the
subtract loop, then the add loop, and return the result. -/
noncomputable def normalizeAngle (a : ℝ) : ℝ :=
  normLoopUp (normLoopDown a)

/-! ### Flocking leader orbit (`src/App.tsx` lines 144-149) -/

/-- A flocking leader as created by `setupCanvas` (`src/App.tsx` lines
195-200): a position plus the fixed angular speed and phase offset. -/
structure Leader where
  x : ℝ
  y : ℝ
  speed : ℝ
  offset : ℝ

/-- Embeds the per-frame leader update in `animate` (`src/App.tsx`
lines 144-149): `time = Date.now() * 0.0001`, then
`leader.x = width / 2 + cos(time * speed + offset) * (width * 0.4)` and
`leader.y = height / 2 + sin(time * speed * 0.7 + offset) * (height * 0.3)`.
`now` is the wall-clock milliseconds value `Date.now()`. -/
noncomputable def leaderUpdate (width height now : ℝ) (leader : Leader) : Leader :=
  let time := now * 0.0001
  { leader with
    x := width / 2 + Real.cos (time * leader.speed + leader.offset) * (width * 0.4)
    y := height / 2 + Real.sin (time * leader.speed * 0.7 + leader.offset) * (height * 0.3) }

/-- Modelled from the spec: the orbit formula of §4.1 step 1,
`x = centerX + cos(t·speed + phase)·0.4·width`, written with the
spec's association and with `centerX = width / 2`.  Used only to be
compared with `leaderUpdate`. -/
noncomputable def specOrbitX (width now speed phase : ℝ) : ℝ :=
  width / 2 + Real.cos (now * 0.0001 * speed + phase) * 0.4 * width

/-- Modelled from the spec: the orbit formula of §4.1 step 1 for `y`,
`y = centerY + sin(t·speed·0.7 + phase)·0.3·height`. -/
noncomputable def specOrbitY (height now speed phase : ℝ) : ℝ :=
  height / 2 + Real.sin (now * 0.0001 * speed * 0.7 + phase) * 0.3 * height

/-! ### Application-level state (`src/App.tsx` lines 607-647) -/

/-- Embeds the `Section` enum from `src/types.ts`. -/
inductive AppSection where
  | home
  | about
  | scanning
  | savedData
  deriving Repr, DecidableEq

/-- The `useState` fields of the `App` component (`src/App.tsx` lines
608-609): the current section and the in-memory saved-scans list. -/
structure AppState where
  currentSection : AppSection
  savedScans : List SavedScan
  deriving Repr, DecidableEq

/-- Embeds `handleNavigate` (`src/App.tsx` lines 611-614). -/
def handleNavigate (target : AppSection) (s : AppState) : AppState :=
  if target = s.currentSection then s
  else { s with currentSection := target }

/-- A user-visible notification raised by `handleSaveScan` via
`alert`. -/
inductive Notice where
  | saveSucceeded
  | saveFailed
  deriving Repr, DecidableEq

/-- Outcome of the persistence collaborator's
`FileReader.readAsDataURL` on the staged file: either the encoded
base64 string (the `onloadend` callback with `reader.result`) or an
encode error (the `onerror` callback). -/
inductive EncodeOutcome where
  | encoded (image : String)
  | encodeError
  deriving Repr, DecidableEq

/-- Embeds `handleSaveScan` (`src/App.tsx` lines 616-632) together
with the `FileReader` event protocol it relies on.  The prepend and
the success alert live in the `reader.onloadend` handler; the
`loadend` event fires after `load` and also after `error`.  So on a
successful read, `onloadend` runs with `reader.result` the encoded
string: the new `SavedScan` is prepended and the success notice
raised.  On a failed read, `onerror` runs first (failure notice), and
then `onloadend` still runs, now with `reader.result = null` (embedded
as `image := none`, see `SavedScan`): a null-image `SavedScan` is
prepended anyway and the success notice is raised as well.  Notices
are listed in the order the alerts fire. -/
def handleSaveScan (results : ScanResults) (outcome : EncodeOutcome)
    (now : Nat) (s : AppState) : AppState × List Notice :=
  match outcome with
  | EncodeOutcome.encoded img =>
      ({ s with savedScans :=
          { results := results, image := some img, timestamp := now } :: s.savedScans },
       [Notice.saveSucceeded])
  | EncodeOutcome.encodeError =>
      ({ s with savedScans :=
          { results := results, image := none, timestamp := now } :: s.savedScans },
       [Notice.saveFailed, Notice.saveSucceeded])

/-! ### Sample data

Concrete values used by the witness theorems; the results are the
end-to-end sample of spec §8. -/

/-- Sample scan results used for concrete instantiations. -/
def sampleResults : ScanResults :=
  { plankton := { count := 1200, accuracy := 97/100 }
    algae := { count := 340, accuracy := 91/100 }
    bacteria := { count := 58, accuracy := 88/100 }
    protozoa := { count := 12, accuracy := 95/100 } }

/-- A sample staged image file. -/
def sampleFile : MFile := { name := "sample.jpg", mediaType := "image/jpeg" }

/-- A sample non-image file. -/
def sampleTextFile : MFile := { name := "notes.txt", mediaType := "text/plain" }

/-- A ResultsShown state with the saved flag already set. -/
def savedShownState : ScanState :=
  { isScanning := false
    scanResults := some sampleResults
    showResults := true
    uploadedFile := some sampleFile
    filePreviewUrl := some 0
    isDataSaved := true }

/-- A ResultsShown state with the saved flag still clear. -/
def unsavedShownState : ScanState :=
  { isScanning := false
    scanResults := some sampleResults
    showResults := true
    uploadedFile := some sampleFile
    filePreviewUrl := some 0
    isDataSaved := false }

/-- A FileStaged state ready for analysis. -/
def stagedState : ScanState :=
  { isScanning := false
    scanResults := none
    showResults := false
    uploadedFile := some sampleFile
    filePreviewUrl := some 3
    isDataSaved := false }

/-! ### Helper lemmas for the angle-normalization loops -/

/-- The subtract loop stops at or below π. -/
theorem normLoopDown_le (a : ℝ) : normLoopDown a ≤ Real.pi := by
  induction a using normLoopDown.induct with
  | case1 x h ih => rw [normLoopDown, if_pos h]; exact ih
  | case2 x h => rw [normLoopDown, if_neg h]; linarith

/-- The subtract loop only shifts by whole turns. -/
theorem normLoopDown_congr (a : ℝ) :
    ∃ k : ℤ, normLoopDown a = a + Real.pi * 2 * k := by
  induction a using normLoopDown.induct with
  | case1 x h ih =>
    obtain ⟨k, hk⟩ := ih
    exact ⟨k - 1, by rw [normLoopDown, if_pos h]; push_cast; linarith [hk]⟩
  | case2 x h => exact ⟨0, by rw [normLoopDown, if_neg h]; simp⟩

/-- The add loop stops at or above −π. -/
theorem normLoopUp_ge (a : ℝ) : -Real.pi ≤ normLoopUp a := by
  induction a using normLoopUp.induct with
  | case1 x h ih => rw [normLoopUp, if_pos h]; exact ih
  | case2 x h => rw [normLoopUp, if_neg h]; linarith

/-- The add loop never pushes a value that starts at or below π above
π. -/
theorem normLoopUp_le (a : ℝ) (ha : a ≤ Real.pi) : normLoopUp a ≤ Real.pi := by
  induction a using normLoopUp.induct with
  | case1 x h ih =>
    rw [normLoopUp, if_pos h]
    have hpi := Real.pi_pos
    exact ih (by linarith)
  | case2 x h => rw [normLoopUp, if_neg h]; exact ha

/-- The add loop only shifts by whole turns. -/
theorem normLoopUp_congr (a : ℝ) :
    ∃ k : ℤ, normLoopUp a = a + Real.pi * 2 * k := by
  induction a using normLoopUp.induct with
  | case1 x h ih =>
    obtain ⟨k, hk⟩ := ih
    exact ⟨k + 1, by rw [normLoopUp, if_pos h]; push_cast; linarith [hk]⟩
  | case2 x h => exact ⟨0, by rw [normLoopUp, if_neg h]; simp⟩

/-! ### Claim theorems -/

/-- C1: in ResultsShown with a staged file and the saved flag clear,
one Save click sets the flag and hands (results, file) to the
persistence collaborator exactly once; a second click in a row — and
any click while results or the staged file are absent or the flag is
set — changes nothing and emits nothing, so two clicks in a row make
exactly one hand-off, and on a successful encode that single hand-off
appends exactly one entry to the saved-scans list. -/
theorem save_click_exactly_once (s : ScanState) (r : ScanResults) (f : MFile)
    (img : String) (now : Nat) (app : AppState)
    (hr : s.scanResults = some r) (hf : s.uploadedFile = some f)
    (hs : s.isDataSaved = false) :
    handleSaveClick s = ({ s with isDataSaved := true }, [Event.invokeSave r f]) ∧
    handleSaveClick (handleSaveClick s).1 = ((handleSaveClick s).1, []) ∧
    saveInvocations
      ((handleSaveClick s).2 ++ (handleSaveClick (handleSaveClick s).1).2) = 1 ∧
    (handleSaveScan r (EncodeOutcome.encoded img) now app).1.savedScans.length
      = app.savedScans.length + 1 ∧
    ∀ s2 : ScanState,
      s2.scanResults = none ∨ s2.uploadedFile = none ∨ s2.isDataSaved = true →
        handleSaveClick s2 = (s2, []) := by
  have h1 : handleSaveClick s
      = ({ s with isDataSaved := true }, [Event.invokeSave r f]) := by
    simp [handleSaveClick, hr, hf, hs]
  have h2 : handleSaveClick (handleSaveClick s).1 = ((handleSaveClick s).1, []) := by
    rw [h1]
    simp [handleSaveClick, hr, hf]
  refine ⟨h1, h2, ?_, ?_, ?_⟩
  · rw [h1]
    simp [handleSaveClick, hr, hf, saveInvocations]
  · simp [handleSaveScan]
  · intro s2 hcase
    rcases hcase with hc | hc | hc
    · simp [handleSaveClick, hc]
    · rcases h3 : s2.scanResults with _ | r2 <;> simp [handleSaveClick, h3, hc]
    · rcases h3 : s2.scanResults with _ | r2 <;>
        rcases h4 : s2.uploadedFile with _ | f2 <;>
        simp [handleSaveClick, h3, h4, hc]

/-- Witness for C1 at the sample ResultsShown state. -/
theorem save_click_exactly_once_witness :
    handleSaveClick unsavedShownState
      = ({ unsavedShownState with isDataSaved := true },
         [Event.invokeSave sampleResults sampleFile]) ∧
    handleSaveClick (handleSaveClick unsavedShownState).1
      = ((handleSaveClick unsavedShownState).1, []) ∧
    saveInvocations
      ((handleSaveClick unsavedShownState).2
        ++ (handleSaveClick (handleSaveClick unsavedShownState).1).2) = 1 ∧
    (handleSaveScan sampleResults (EncodeOutcome.encoded "data:image/jpeg;base64,x")
        7 { currentSection := AppSection.scanning, savedScans := [] }).1.savedScans.length
      = ([] : List SavedScan).length + 1 ∧
    ∀ s2 : ScanState,
      s2.scanResults = none ∨ s2.uploadedFile = none ∨ s2.isDataSaved = true →
        handleSaveClick s2 = (s2, []) :=
  save_click_exactly_once unsavedShownState sampleResults sampleFile
    "data:image/jpeg;base64,x" 7
    { currentSection := AppSection.scanning, savedScans := [] }
    rfl rfl rfl

/-- C2: starting a scan while one is already in flight, or with no file
staged, leaves the state unchanged and launches no analysis; from a
ready state the first start launches exactly one analysis and raises
the in-flight flag, so a second start issued while the first is still
pending is a no-op and the two calls together launch the collaborator
exactly once. -/
theorem start_scan_single_invocation (s : ScanState) (f : MFile)
    (h1 : s.isScanning = false) (h2 : s.uploadedFile = some f) :
    (startScanBegin s).2 = [Event.invokeAnalysis] ∧
    (startScanBegin s).1.isScanning = true ∧
    startScanBegin (startScanBegin s).1 = ((startScanBegin s).1, []) ∧
    analysisInvocations
      ((startScanBegin s).2 ++ (startScanBegin (startScanBegin s).1).2) = 1 ∧
    ∀ s2 : ScanState, s2.isScanning = true ∨ s2.uploadedFile = none →
      startScanBegin s2 = (s2, []) := by
  have hb : startScanBegin s
      = ({ s with isScanning := true, showResults := false, isDataSaved := false },
         [Event.invokeAnalysis]) := by
    simp [startScanBegin, h1, h2]
  have hsecond : startScanBegin (startScanBegin s).1 = ((startScanBegin s).1, []) := by
    rw [hb]
    simp [startScanBegin]
  refine ⟨by rw [hb], by rw [hb], hsecond, ?_, ?_⟩
  · rw [hsecond, hb]
    simp [analysisInvocations]
  · intro s2 hcase
    rcases hcase with hc | hc <;> simp [startScanBegin, hc]

/-- Witness for C2 at the sample FileStaged state. -/
theorem start_scan_single_invocation_witness :
    (startScanBegin stagedState).2 = [Event.invokeAnalysis] ∧
    (startScanBegin stagedState).1.isScanning = true ∧
    startScanBegin (startScanBegin stagedState).1
      = ((startScanBegin stagedState).1, []) ∧
    analysisInvocations
      ((startScanBegin stagedState).2
        ++ (startScanBegin (startScanBegin stagedState).1).2) = 1 ∧
    ∀ s2 : ScanState, s2.isScanning = true ∨ s2.uploadedFile = none →
      startScanBegin s2 = (s2, []) :=
  start_scan_single_invocation stagedState sampleFile rfl rfl

/-- C3 counterexample: resetting from a ResultsShown state whose data
was already saved leaves the saved flag set, so Reset does not return
the Saved flag to false as claimed. -/
theorem reset_keeps_saved_flag_cex :
    (resetScan savedShownState 1).1.isDataSaved ≠ false := by
  decide

/-- C3 as amended: Reset from any state clears the staged file, the
preview resource (revoking any live preview URL), the results and the
Analyzing flag and leaves the results hidden, but it leaves the Saved
flag unchanged; the flag is only cleared again by the next staging or
analysis start. -/
theorem reset_clears_all_but_saved_flag (s : ScanState) (fresh : Nat) :
    (resetScan s fresh).1.uploadedFile = none ∧
    (resetScan s fresh).1.filePreviewUrl = none ∧
    (resetScan s fresh).1.scanResults = none ∧
    (resetScan s fresh).1.isScanning = false ∧
    (resetScan s fresh).1.showResults = false ∧
    (resetScan s fresh).1.isDataSaved = s.isDataSaved ∧
    applyEvents s.filePreviewUrl.toList (resetScan s fresh).2.1 = [] := by
  rcases h : s.filePreviewUrl with _ | u <;>
    simp [resetScan, handleFileChange, applyEvents, applyEvent, h]

/-- C9: when the analysis collaborator yields an absent result, the
completed flow leaves results absent and the results view hidden (no
transition to ResultsShown), clears the Analyzing flag, and keeps the
staged file; no notice is raised on this path. -/
theorem analysis_absent_no_transition (s : ScanState) (f : MFile)
    (h1 : s.isScanning = false) (h2 : s.uploadedFile = some f) :
    (startScanComplete none (startScanBegin s).1).scanResults = none ∧
    (startScanComplete none (startScanBegin s).1).showResults = false ∧
    (startScanComplete none (startScanBegin s).1).isScanning = false ∧
    (startScanComplete none (startScanBegin s).1).uploadedFile = some f := by
  simp [startScanBegin, startScanComplete, h1, h2]

/-- Witness for C9 at the sample FileStaged state. -/
theorem analysis_absent_no_transition_witness :
    (startScanComplete none (startScanBegin stagedState).1).scanResults = none ∧
    (startScanComplete none (startScanBegin stagedState).1).showResults = false ∧
    (startScanComplete none (startScanBegin stagedState).1).isScanning = false ∧
    (startScanComplete none (startScanBegin stagedState).1).uploadedFile
      = some sampleFile :=
  analysis_absent_no_transition stagedState sampleFile rfl rfl

/-- C6: staging an absent input or one whose media type does not start
with the image prefix leaves no file staged and no preview resource
live: any previously staged file and its preview URL are cleared (the
emitted effects are exactly the revocation of the previous preview, so
any previously live URL is released), no new preview URL is allocated,
the freshness counter does not move, and all other state fields are
untouched — the rejection is silent. -/
theorem stage_non_image_rejected (s : ScanState) (fresh : Nat) (file : Option MFile)
    (h : ∀ f : MFile, file = some f → strStartsWith f.mediaType "image/" = false) :
    (handleFileChange file s fresh).1.uploadedFile = none ∧
    (handleFileChange file s fresh).1.filePreviewUrl = none ∧
    (handleFileChange file s fresh).2.2 = fresh ∧
    (handleFileChange file s fresh).2.1 = previewCleanup s ∧
    (∀ u : Nat, Event.createUrl u ∉ (handleFileChange file s fresh).2.1) ∧
    applyEvents s.filePreviewUrl.toList (handleFileChange file s fresh).2.1 = [] ∧
    (handleFileChange file s fresh).1.isScanning = s.isScanning ∧
    (handleFileChange file s fresh).1.scanResults = s.scanResults ∧
    (handleFileChange file s fresh).1.showResults = s.showResults ∧
    (handleFileChange file s fresh).1.isDataSaved = s.isDataSaved := by
  rcases file with _ | f
  · rcases hp : s.filePreviewUrl with _ | u <;>
      simp [handleFileChange, previewCleanup, applyEvents, applyEvent, hp]
  · have hf := h f rfl
    rcases hp : s.filePreviewUrl with _ | u <;>
      simp [handleFileChange, previewCleanup, applyEvents, applyEvent, hp, hf]

/-- Witness for C6: staging a text file over a staged image clears the
stage without allocating. -/
theorem stage_non_image_rejected_witness :
    (handleFileChange (some sampleTextFile) stagedState 9).1.uploadedFile = none ∧
    (handleFileChange (some sampleTextFile) stagedState 9).1.filePreviewUrl = none ∧
    (handleFileChange (some sampleTextFile) stagedState 9).2.2 = 9 ∧
    (handleFileChange (some sampleTextFile) stagedState 9).2.1
      = previewCleanup stagedState ∧
    (∀ u : Nat,
      Event.createUrl u ∉ (handleFileChange (some sampleTextFile) stagedState 9).2.1) ∧
    applyEvents stagedState.filePreviewUrl.toList
      (handleFileChange (some sampleTextFile) stagedState 9).2.1 = [] ∧
    (handleFileChange (some sampleTextFile) stagedState 9).1.isScanning
      = stagedState.isScanning ∧
    (handleFileChange (some sampleTextFile) stagedState 9).1.scanResults
      = stagedState.scanResults ∧
    (handleFileChange (some sampleTextFile) stagedState 9).1.showResults
      = stagedState.showResults ∧
    (handleFileChange (some sampleTextFile) stagedState 9).1.isDataSaved
      = stagedState.isDataSaved :=
  stage_non_image_rejected stagedState 9 (some sampleTextFile)
    (by intro f hf; cases hf; decide)

/-- C7: staging a new image while a preview is live emits exactly one
revocation of the old URL followed by exactly one allocation of the
new one — in that order — so at every point of the event sequence at
most one URL is live, and afterwards exactly the new URL is live; the
teardown cleanup releases the live preview from any state, emptying
the live set. -/
theorem stage_image_single_live_preview (s : ScanState) (fresh : Nat)
    (f : MFile) (u : Nat)
    (himg : strStartsWith f.mediaType "image/" = true)
    (hu : s.filePreviewUrl = some u) :
    (handleFileChange (some f) s fresh).2.1
      = [Event.revokeUrl u, Event.createUrl fresh] ∧
    (handleFileChange (some f) s fresh).1.filePreviewUrl = some fresh ∧
    (handleFileChange (some f) s fresh).1.uploadedFile = some f ∧
    (∀ n : Nat,
      (applyEvents [u] (((handleFileChange (some f) s fresh).2.1).take n)).length ≤ 1) ∧
    applyEvents [u] (handleFileChange (some f) s fresh).2.1 = [fresh] ∧
    ∀ t : ScanState, applyEvents t.filePreviewUrl.toList (previewCleanup t) = [] := by
  have hev : (handleFileChange (some f) s fresh).2.1
      = [Event.revokeUrl u, Event.createUrl fresh] := by
    simp [handleFileChange, himg, hu]
  refine ⟨hev, ?_, ?_, ?_, ?_, ?_⟩
  · simp [handleFileChange, himg, hu]
  · simp [handleFileChange, himg, hu]
  · intro n
    rw [hev]
    rcases n with _ | _ | n <;> simp [applyEvents, applyEvent]
  · rw [hev]
    simp [applyEvents, applyEvent]
  · intro t
    rcases hp : t.filePreviewUrl with _ | v <;>
      simp [previewCleanup, applyEvents, applyEvent, hp]

/-- Witness for C7: staging a fresh image over the sample staged state
swaps preview URL 3 for URL 9. -/
theorem stage_image_single_live_preview_witness :
    (handleFileChange (some sampleFile) stagedState 9).2.1
      = [Event.revokeUrl 3, Event.createUrl 9] ∧
    (handleFileChange (some sampleFile) stagedState 9).1.filePreviewUrl = some 9 ∧
    (handleFileChange (some sampleFile) stagedState 9).1.uploadedFile
      = some sampleFile ∧
    (∀ n : Nat,
      (applyEvents [3] (((handleFileChange (some sampleFile) stagedState 9).2.1).take n)).length
        ≤ 1) ∧
    applyEvents [3] (handleFileChange (some sampleFile) stagedState 9).2.1 = [9] ∧
    ∀ t : ScanState, applyEvents t.filePreviewUrl.toList (previewCleanup t) = [] :=
  stage_image_single_live_preview stagedState 9 sampleFile 3 (by decide) rfl

/-- C8: evaluation of the code at the failing input.  The prepend and
success alert sit in the onloadend handler, and loadend also fires
after error, so a save whose encode fails still prepends a SavedScan —
one whose image is the runtime null that the as-string cast lets
through — and raises the success notice right after the failure
notice; the saved-scans list is not left unchanged on encode failure
as the claim (and spec §6) require. -/
theorem save_scan_error_still_prepends :
    (handleSaveScan sampleResults EncodeOutcome.encodeError 7
        { currentSection := AppSection.scanning, savedScans := [] }).1.savedScans
      = [{ results := sampleResults, image := none, timestamp := 7 }] ∧
    (handleSaveScan sampleResults EncodeOutcome.encodeError 7
        { currentSection := AppSection.scanning, savedScans := [] }).2
      = [Notice.saveFailed, Notice.saveSucceeded] :=
  ⟨rfl, rfl⟩

/-- C10: on a frame update the leader's new position is exactly the
orbit formula of the spec — x = centerX + cos(t·speed + phase)·0.4·width,
y = centerY + sin(t·speed·0.7 + phase)·0.3·height with t the wall clock
scaled by 0.0001 — and it is a pure function of time, speed, phase and
the viewport: two leaders with the same speed and phase but different
previous positions are updated to identical leaders. -/
theorem leader_orbit_pure (width height now sp ph x1 y1 x2 y2 : ℝ) :
    (leaderUpdate width height now ⟨x1, y1, sp, ph⟩).x = specOrbitX width now sp ph ∧
    (leaderUpdate width height now ⟨x1, y1, sp, ph⟩).y = specOrbitY height now sp ph ∧
    leaderUpdate width height now ⟨x1, y1, sp, ph⟩
      = leaderUpdate width height now ⟨x2, y2, sp, ph⟩ := by
  refine ⟨?_, ?_, ?_⟩
  · simp [leaderUpdate, specOrbitX]
    ring
  · simp [leaderUpdate, specOrbitY]
    ring
  · simp [leaderUpdate]

/-- C4: while the results are hidden every counter target is 0, so the
animation that starts when ResultsShown is entered starts from the
previous target 0; each category's own count is its target, the
displayed value at elapsed time 0 is 0, it equals floor(target·e/1500)
during the 1500 ms window (linear interpolation over elapsed time),
and from 1500 ms on it equals the true count. -/
theorem counter_animates_linearly (r : ScanResults) (t : Nat) (e : ℚ)
    (results : Option ScanResults) (pick : ScanResults → OrganismResult) :
    counterStartOfPrevTarget ((counterTarget false results pick : Nat) : ℚ) = 0 ∧
    counterDisplay 0 t 1500 0 = 0 ∧
    (1500 ≤ e → counterDisplay 0 t 1500 e = t) ∧
    (0 ≤ e → e ≤ 1500 → counterDisplay 0 t 1500 e = ⌊(t * e) / 1500⌋) ∧
    counterTarget true (some r) (fun x => x.plankton) = r.plankton.count ∧
    counterTarget true (some r) (fun x => x.algae) = r.algae.count ∧
    counterTarget true (some r) (fun x => x.bacteria) = r.bacteria.count ∧
    counterTarget true (some r) (fun x => x.protozoa) = r.protozoa.count := by
  refine ⟨by simp [counterStartOfPrevTarget, counterTarget], ?_, ?_, ?_,
    by simp [counterTarget], by simp [counterTarget], by simp [counterTarget],
    by simp [counterTarget]⟩
  · norm_num [counterDisplay, lerp, counterProgress]
  · intro he
    have hpos : (0 : ℚ) < 1500 := by norm_num
    have h1 : (1 : ℚ) ≤ e / 1500 := (one_le_div hpos).mpr he
    simp [counterDisplay, counterProgress, lerp, min_eq_right h1]
  · intro h0 h1500
    have hq : e / 1500 ≤ 1 := by
      rw [div_le_one (by norm_num : (0 : ℚ) < 1500)]
      exact h1500
    rw [counterDisplay, counterProgress, min_eq_left hq, lerp]
    congr 1
    ring

/-- Witness for C4 at the algae target of the sample results: the
counter reads 340 once 1500 ms have elapsed and 170 halfway. -/
theorem counter_animates_linearly_witness :
    counterDisplay 0 (340 : Nat) 1500 1500 = ((340 : Nat) : ℤ) ∧
    counterDisplay 0 (340 : Nat) 1500 750 = ⌊(((340 : Nat) : ℚ) * 750) / 1500⌋ :=
  ⟨(counter_animates_linearly sampleResults 340 1500 none
      (fun x => x.algae)).2.2.1 (by norm_num),
   (counter_animates_linearly sampleResults 340 750 none
      (fun x => x.algae)).2.2.2.1 (by norm_num) (by norm_num)⟩

/-- C5 counterexample: at a = −π neither loop fires, so
normalizeAngle (−π) = −π, which lies outside the claimed half-open
interval (−π, π]. -/
theorem normalize_angle_neg_pi_cex :
    normalizeAngle (-Real.pi) = -Real.pi ∧
    normalizeAngle (-Real.pi) ∉ Set.Ioc (-Real.pi) Real.pi := by
  have hpi := Real.pi_pos
  have h : normalizeAngle (-Real.pi) = -Real.pi := by
    rw [normalizeAngle, normLoopDown, if_neg (by linarith), normLoopUp,
      if_neg (by linarith)]
  refine ⟨h, ?_⟩
  rw [h]
  simp

/-- C5 as amended: for every real angle a, normalizeAngle a terminates
(both embedded loops are total functions), its result lies in the
closed interval [−π, π], and the result is congruent to a modulo 2π.
The interval is closed on the left, not open as claimed: inputs
congruent to −π are returned as −π. -/
theorem normalize_angle_range_congruence (a : ℝ) :
    normalizeAngle a ∈ Set.Icc (-Real.pi) Real.pi ∧
    ∃ k : ℤ, normalizeAngle a = a + Real.pi * 2 * k := by
  constructor
  · exact ⟨normLoopUp_ge _, normLoopUp_le _ (normLoopDown_le a)⟩
  · obtain ⟨k1, h1⟩ := normLoopDown_congr a
    obtain ⟨k2, h2⟩ := normLoopUp_congr (normLoopDown a)
    exact ⟨k1 + k2, by rw [normalizeAngle, h2, h1]; push_cast; ring⟩

end SeaLens
